import Mathlib

/-!
Verification of the `argparse` single-header C++ command-line parsing library.

The definitions below are a shallow embedding of `src/argparse/argparse.h`
(the current header) and, where noted, of the historical variant
`src/unnamed/part_000` (which adds a tail-separator to `ParseArgs`).
Machine integers are modelled as `Int`/`Nat` with explicit clamping where the
C code saturates; C++ exceptions (`ARGPARSE_FAIL`) are modelled with
`Except String`; `std::optional` with `Option`; registries
(`std::unordered_map`) with association lists.
-/

namespace Argparse

/-! ## Character classes used by the C library functions (`"C"` locale) -/

/-- `isspace` in the `"C"` locale: space (32) and the control characters
9–13 (tab, newline, vertical tab, form feed, carriage return). -/
def isSpaceC (c : Char) : Bool :=
  c.toNat = 32 || (9 ≤ c.toNat && c.toNat ≤ 13)

/-- `isdigit`: codepoints 48 (`'0'`) through 57 (`'9'`). -/
def isDigitC (c : Char) : Bool :=
  48 ≤ c.toNat && c.toNat ≤ 57

/-! ## Model of `std::strtoll(str, &endptr, 10)`

`strtoll` skips leading whitespace, accepts one optional `'+'`/`'-'`, then
consumes a maximal run of decimal digits.  If no digits were consumed the
stored `endptr` equals the original pointer (0 characters consumed) and the
result is 0; otherwise `endptr` points just past the last digit and the
result is the signed value, saturated to the `long long` range. -/

/-- Leading-whitespace skip: returns the number of characters skipped and
the remaining characters. -/
def skipSpaces : List Char → Nat × List Char
  | [] => (0, [])
  | c :: cs =>
    if isSpaceC c then
      let r := skipSpaces cs
      (r.1 + 1, r.2)
    else (0, c :: cs)

/-- Maximal decimal-digit run: accumulates `acc * 10 + digit` left to right,
returning the accumulated value and the number of digits consumed. -/
def scanDigits : List Char → Nat → Nat × Nat
  | [], acc => (acc, 0)
  | c :: cs, acc =>
    if isDigitC c then
      let r := scanDigits cs (acc * 10 + (c.toNat - 48))
      (r.1, r.2 + 1)
    else (acc, 0)

/-- `LLONG_MAX` for the 64-bit `long long` of the reference platform. -/
def llMax : Int := 2 ^ 63 - 1

/-- `LLONG_MIN`. -/
def llMin : Int := -(2 ^ 63)

/-- Saturation to the `long long` range, as `strtoll` does on overflow. -/
def clampLL (x : Int) : Int := max llMin (min x llMax)

/-- The optional sign: returns the sign factor, the number of characters
consumed (0 or 1) and the remaining characters. -/
def signSplit : List Char → Int × Nat × List Char
  | [] => (1, 0, [])
  | c :: t =>
    if c = '-' then (-1, 1, t)
    else if c = '+' then (1, 1, t)
    else (1, 0, c :: t)

/-- `strtoll(s, &endptr, 10)` on the character list of `s`: returns the
value and the number of characters consumed (`endptr - s`).  A parse that
finds no digits consumes 0 characters and yields 0. -/
def strtoll10 (s : List Char) : Int × Nat :=
  let ws := skipSpaces s
  let sgn := signSplit ws.2
  let d := scanDigits sgn.2.2 0
  if d.2 = 0 then (0, 0)
  else (clampLL (sgn.1 * (d.1 : Int)), ws.1 + sgn.2.1 + d.2)

/-- `Cast<long long int>` from `src/argparse/argparse.h` (lines 106–113):
runs `strtoll` base 10 and fails unless `endptr` ended up at the very end
of the string (`endptr != str.c_str() + str.length()`). -/
def CastLLI (s : String) : Except String Int :=
  let r := strtoll10 s.data
  if r.2 ≠ s.data.length then
    .error ("Failed to cast `" ++ s ++ "` to integer")
  else .ok r.1

/-! ## The canonical decimal string of an integer (specification side)

Used only to state the round-trip law of claim C7: `decimalString n` is the
ordinary base-10 numeral of `n` (digits `0`–`9`, a leading `'-'` for
negative numbers, no leading zeros).  The fuel argument makes the recursion
structural; `n + 1` units of fuel always suffice since `n / 10 < n`. -/

/-- Big-endian digit characters of a natural number, accumulator style. -/
def natDecAux : Nat → Nat → List Char → List Char
  | 0, _, acc => acc
  | fuel + 1, n, acc =>
    let d := Nat.digitChar (n % 10)
    if n < 10 then d :: acc else natDecAux fuel (n / 10) (d :: acc)

/-- The decimal digit characters of a natural number. -/
def natDecChars (n : Nat) : List Char := natDecAux (n + 1) n []

/-- The decimal string of an integer. -/
def decimalString (n : Int) : String :=
  if n < 0 then ⟨'-' :: natDecChars n.natAbs⟩ else ⟨natDecChars n.natAbs⟩

/-! ## Argument Holders (`argparse.h` lines 154–334)

Each C++ holder class becomes a structure carrying its `ArgHolderBase`
fields (`fullname_`, `shortname_`, `required_`; the unused `help_` text is
omitted) plus its own state.  The per-type global caster `Cast<Type>` and
`detail::Equals` are passed to the operations as explicit functions
`cast : String → Except String α` (an `.error` models the exception thrown
by a failed `Cast`) and `eq : α → α → Bool`. -/

/-- `detail::IsValidValue` (lines 81–87): membership in the options list
under the type's equality. -/
def IsValidValue {α : Type} (eq : α → α → Bool) (value : α) (options : List α) : Bool :=
  options.any (fun option => eq value option)

/-- `FlagHolder` (lines 196–225). -/
structure FlagHolder where
  fullname : String
  shortname : Char
  required : Bool
  value : Nat
  deriving Repr, DecidableEq

/-- `FlagHolder::ProcessFlag`: increments the count, never fails. -/
def FlagHolder.ProcessFlag (f : FlagHolder) : FlagHolder :=
  { f with value := f.value + 1 }

/-- `FlagHolder::ProcessValue`: always fails. -/
def FlagHolder.ProcessValue (_f : FlagHolder) (_value_str : String) :
    Except String FlagHolder :=
  .error "Flags don't accept values"

/-- `ArgHolder<Type>` (lines 227–279).  `contains_default_` is initialised
to `true` by the class and — exactly as in the source — is never modified
by any member function of `ArgHolder`. -/
structure ArgHolder (α : Type) where
  fullname : String
  shortname : Char
  required : Bool
  value : Option α
  options : Option (List α)
  contains_default : Bool
  deriving Repr, DecidableEq

/-- A freshly constructed `ArgHolder` (constructor, line 230):
no value, no options, `contains_default_ = true`, not required. -/
def ArgHolder.mkNew (α : Type) (fullname : String) (shortname : Char) : ArgHolder α :=
  { fullname := fullname, shortname := shortname, required := false,
    value := none, options := none, contains_default := true }

/-- `ArgHolder::HasValue`. -/
def ArgHolder.HasValue {α : Type} (h : ArgHolder α) : Bool :=
  h.value.isSome

/-- `ArgHolder::ProcessFlag`: always fails. -/
def ArgHolder.ProcessFlag {α : Type} (h : ArgHolder α) : Except String (ArgHolder α) :=
  .error ("Argument requires a value (`" ++ h.fullname ++ "`)")

/-- `ArgHolder::ProcessValue` (lines 245–255): fails when a value is held
and `contains_default_` is false; then casts, checks the options list, and
stores the new value. -/
def ArgHolder.ProcessValue {α : Type} (cast : String → Except String α)
    (eq : α → α → Bool) (h : ArgHolder α) (value_str : String) :
    Except String (ArgHolder α) :=
  if h.HasValue && !h.contains_default then
    .error ("Argument accepts only one value (`" ++ h.fullname ++ "`)")
  else
    match cast value_str with
    | .error e => .error e
    | .ok value =>
      if (match h.options with
          | some opts => !IsValidValue eq value opts
          | none => false) then
        .error ("Provided argument string casts to an illegal value (`" ++
          h.fullname ++ "`)")
      else .ok { h with value := some value }

/-- `ArgHolderBase::set_required` (lines 180–184). -/
def ArgHolder.set_required {α : Type} (h : ArgHolder α) (required : Bool) :
    Except String (ArgHolder α) :=
  if h.HasValue then .error "Argument with a default value can't be required"
  else .ok { h with required := required }

/-- `ArgHolder::set_value` (lines 261–265), used by `.Default(value)`. -/
def ArgHolder.set_value {α : Type} (h : ArgHolder α) (value : α) :
    Except String (ArgHolder α) :=
  if h.required then .error "Required argument can't have a default value"
  else .ok { h with value := some value }

/-- `ArgHolder::set_options` (lines 267–273): the equality capability is a
compile-time `static_assert`; at run time only emptiness is checked, and
the list is stored. -/
def ArgHolder.set_options {α : Type} (h : ArgHolder α) (options : List α) :
    Except String (ArgHolder α) :=
  if options.isEmpty then
    .error ("Set of options can't be empty (`" ++ h.fullname ++ "`)")
  else .ok { h with options := some options }

/-- `MultiArgHolder<Type>` (lines 281–334). -/
structure MultiArgHolder (α : Type) where
  fullname : String
  shortname : Char
  required : Bool
  values : List α
  options : Option (List α)
  contains_default : Bool
  deriving Repr, DecidableEq

/-- A freshly constructed `MultiArgHolder`. -/
def MultiArgHolder.mkNew (α : Type) (fullname : String) (shortname : Char) :
    MultiArgHolder α :=
  { fullname := fullname, shortname := shortname, required := false,
    values := [], options := none, contains_default := true }

/-- `MultiArgHolder::HasValue`. -/
def MultiArgHolder.HasValue {α : Type} (h : MultiArgHolder α) : Bool :=
  !h.values.isEmpty

/-- `MultiArgHolder::ProcessFlag` (lines 295–297): always fails. -/
def MultiArgHolder.ProcessFlag {α : Type} (_h : MultiArgHolder α) :
    Except String (MultiArgHolder α) :=
  .error "This argument requires a value"

/-- `MultiArgHolder::ProcessValue` (lines 299–310): first visit clears a
configured default, then casts, checks the options list, and appends. -/
def MultiArgHolder.ProcessValue {α : Type} (cast : String → Except String α)
    (eq : α → α → Bool) (h : MultiArgHolder α) (value_str : String) :
    Except String (MultiArgHolder α) :=
  let h := if h.contains_default then
    { h with values := [], contains_default := false } else h
  match cast value_str with
  | .error e => .error e
  | .ok value =>
    if (match h.options with
        | some opts => !IsValidValue eq value opts
        | none => false) then
      .error "Provided argument string casts to an illegal value"
    else .ok { h with values := h.values ++ [value] }

/-- `MultiArgHolder::set_values` (lines 316–320), used by `.Default(list)`. -/
def MultiArgHolder.set_values {α : Type} (h : MultiArgHolder α) (values : List α) :
    Except String (MultiArgHolder α) :=
  if h.required then .error "Required argument can't have a default value"
  else .ok { h with values := values }

/-- `MultiArgHolder::set_options` (lines 322–328): as for `ArgHolder`,
only emptiness is checked at run time. -/
def MultiArgHolder.set_options {α : Type} (h : MultiArgHolder α) (options : List α) :
    Except String (MultiArgHolder α) :=
  if options.isEmpty then
    .error ("Set of options can't be empty (`" ++ h.fullname ++ "`)")
  else .ok { h with options := some options }

/-! ## Dynamic dispatch through `ArgHolderBase*` -/

/-- A holder seen through its `ArgHolderBase` interface. -/
inductive HolderB (α : Type) where
  | flagH : FlagHolder → HolderB α
  | singleH : ArgHolder α → HolderB α
  | multiH : MultiArgHolder α → HolderB α
  deriving Repr, DecidableEq

/-- Virtual `HasValue`. -/
def HolderB.HasValue {α : Type} : HolderB α → Bool
  | .flagH _ => true
  | .singleH h => h.HasValue
  | .multiH h => h.HasValue

/-- Virtual `RequiresValue`: false only for flags. -/
def HolderB.RequiresValue {α : Type} : HolderB α → Bool
  | .flagH _ => false
  | .singleH _ => true
  | .multiH _ => true

/-- `ArgHolderBase::required`. -/
def HolderB.required {α : Type} : HolderB α → Bool
  | .flagH f => f.required
  | .singleH h => h.required
  | .multiH h => h.required

/-- Virtual `ProcessFlag`. -/
def HolderB.ProcessFlag {α : Type} : HolderB α → Except String (HolderB α)
  | .flagH f => .ok (.flagH f.ProcessFlag)
  | .singleH h => (h.ProcessFlag).map .singleH
  | .multiH h => (h.ProcessFlag).map .multiH

/-- Virtual `ProcessValue`. -/
def HolderB.ProcessValue {α : Type} (cast : String → Except String α)
    (eq : α → α → Bool) : HolderB α → String → Except String (HolderB α)
  | .flagH f, s => (f.ProcessValue s).map .flagH
  | .singleH h, s => (h.ProcessValue cast eq s).map .singleH
  | .multiH h, s => (h.ProcessValue cast eq s).map .multiH

/-! ## Holder Registry (`detail::Holders`, lines 429–528)

The `std::unordered_map`s become association lists; the C++ in-place
mutation through the looked-up pointer becomes an update at the key. -/

/-- Update an association list at a key (identity if the key is absent). -/
def assocSet {β : Type} : List (String × β) → String → β → List (String × β)
  | [], _, _ => []
  | (k, v) :: rest, key, nv =>
    if k = key then (k, nv) :: rest else (k, v) :: assocSet rest key nv

/-- `detail::Holders`: the full-name map and the short→full name map. -/
structure Holders (α : Type) where
  holders : List (String × HolderB α)
  short_long_mapping : List (Char × String)
  deriving Repr, DecidableEq

/-- `Holders::GetHolderByFullName` (lines 465–472). -/
def Holders.GetHolderByFullName {α : Type} (r : Holders α) (fullname : String) :
    Option (HolderB α) :=
  r.holders.lookup fullname

/-- `Holders::GetHolderByShortName` (lines 474–486); the full name under
which the holder is stored is also returned, standing in for the C++
pointer through which the caller later mutates the holder. -/
def Holders.GetHolderByShortName {α : Type} (r : Holders α) (shortname : Char) :
    Option (String × HolderB α) :=
  match r.short_long_mapping.lookup shortname with
  | none => none
  | some full =>
    match r.holders.lookup full with
    | none => none
    | some h => some (full, h)

/-- Write-back of a mutated holder into the registry. -/
def Holders.SetByFullName {α : Type} (r : Holders α) (fullname : String)
    (h : HolderB α) : Holders α :=
  { r with holders := assocSet r.holders fullname h }

/-- `Holders::Size`. -/
def Holders.Size {α : Type} (r : Holders α) : Nat :=
  r.holders.length

/-- The loop body of `Holders::PerformPostParseCheck` (lines 498–503). -/
def checkHoldersList {α : Type} : List (String × HolderB α) → Except String Unit
  | [] => .ok ()
  | (name, arg) :: rest =>
    if arg.required && !arg.HasValue then
      .error ("No value provided for option `" ++ name ++ "`")
    else checkHoldersList rest

/-- `Holders::PerformPostParseCheck`. -/
def Holders.PerformPostParseCheck {α : Type} (r : Holders α) : Except String Unit :=
  checkHoldersList r.holders

/-! ## Parser (`argparse.h` lines 577–878)

The process-wide `detail::GlobalHolders()` singleton is modelled as an
explicit `globalHolders` field.  The `usage_string_`/`exit_code_` pair only
affects the `ParseArgs` wrapper that catches the error and exits the
process; the core `DoParseArgs` modelled here never reads them, so they are
omitted.  The `tail_args` field exists only in the historical variant
`src/unnamed/part_000`; the `argparse.h` scan below never touches it. -/

/-- The parser state. -/
structure ParserS (α : Type) where
  globalHolders : Holders α
  holders : Holders α
  positionals : Holders α
  free_args : Option (List String)
  tail_args : List String
  parse_global_args : Bool
  deriving Repr, DecidableEq

/-- `detail::SplitLongArg` (lines 53–60), on the character list: find the
first `'='`, return the text before it and the text after it. -/
def SplitLongArgAux : List Char → Option (List Char × List Char)
  | [] => none
  | c :: cs =>
    if c = '=' then some ([], cs)
    else
      match SplitLongArgAux cs with
      | none => none
      | some r => some (c :: r.1, r.2)

/-- `detail::SplitLongArg`. -/
def SplitLongArg (arg : String) : String × Option String :=
  match SplitLongArgAux arg.data with
  | none => (arg, none)
  | some r => (String.mk r.1, some (String.mk r.2))

/-- `detail::EscapeValue` (lines 62–68): strip one leading backslash. -/
def EscapeValue (value : String) : String :=
  match value.data with
  | '\\' :: _ => value.drop 1
  | _ => value

/-- `detail::PositionalArgumentName` (lines 535–537). -/
def PositionalArgumentName (position : Nat) : String :=
  "__positional_argument__" ++ String.mk (natDecChars position)

/-- `args[i][0] == c` guarded by non-emptiness. -/
def firstCharIs (a : String) (c : Char) : Bool :=
  match a.data with
  | [] => false
  | d :: _ => d == c

/-- `Parser::GetHolderByFullName` (lines 806–815): the Global Registry is
consulted first when `parse_global_args_` is set, then the local registry.
The boolean records which registry the holder came from (the C++ caller
keeps this information in the returned pointer). -/
def ParserS.GetHolderByFullNameLoc {α : Type} (p : ParserS α) (fullname : String) :
    Option (Bool × HolderB α) :=
  if p.parse_global_args then
    match p.globalHolders.GetHolderByFullName fullname with
    | some h => some (true, h)
    | none => (p.holders.GetHolderByFullName fullname).map (fun h => (false, h))
  else (p.holders.GetHolderByFullName fullname).map (fun h => (false, h))

/-- `Parser::GetHolderByShortName` (lines 817–826), global first. -/
def ParserS.GetHolderByShortNameLoc {α : Type} (p : ParserS α) (shortname : Char) :
    Option (Bool × String × HolderB α) :=
  if p.parse_global_args then
    match p.globalHolders.GetHolderByShortName shortname with
    | some r => some (true, r.1, r.2)
    | none => (p.holders.GetHolderByShortName shortname).map (fun r => (false, r.1, r.2))
  else (p.holders.GetHolderByShortName shortname).map (fun r => (false, r.1, r.2))

/-- Write a mutated holder back into the registry it was found in. -/
def ParserS.updateFull {α : Type} (p : ParserS α) (inGlobal : Bool)
    (fullname : String) (h : HolderB α) : ParserS α :=
  if inGlobal then { p with globalHolders := p.globalHolders.SetByFullName fullname h }
  else { p with holders := p.holders.SetByFullName fullname h }

/-- `Parser::ParseLongArg` (lines 733–759).  `next` is `args[offset+1]`
when it exists; the returned number is the `step` (tokens consumed). -/
def ParseLongArg {α : Type} (cast : String → Except String α) (eq : α → α → Bool)
    (p : ParserS α) (tok : String) (next : Option String) :
    Except String (ParserS α × Nat) :=
  let s := SplitLongArg (tok.drop 2)
  match p.GetHolderByFullNameLoc s.1 with
  | none => .error ("Unknown long option (`" ++ s.1 ++ "`)")
  | some (g, holder) =>
    match s.2 with
    | some v =>
      if !holder.RequiresValue then
        .error ("Long option doesn't require a value (`" ++ s.1 ++ "`)")
      else
        match holder.ProcessValue cast eq v with
        | .error e => .error e
        | .ok h2 => .ok (p.updateFull g s.1 h2, 1)
    | none =>
      if !holder.RequiresValue then
        match holder.ProcessFlag with
        | .error e => .error e
        | .ok h2 => .ok (p.updateFull g s.1 h2, 1)
      else
        match next with
        | none => .error ("No value provided for a long option (`" ++ s.1 ++ "`)")
        | some nv =>
          match holder.ProcessValue cast eq nv with
          | .error e => .error e
          | .ok h2 => .ok (p.updateFull g s.1 h2, 2)

/-- The character loop of `Parser::ParseShortArgs` (lines 761–800).  The
list argument holds the characters of the group from position `i` on; the
boolean records `i == 1` (first option character of the token).  The tests
of the source map as: `i + 1 == arg.length()` ↔ the current character is
the last one (the list after it is empty), and `i == 1 && arg.length() > 2` ↔
`isFirst` plus the explicit length test. -/
def ShortGroupLoop {α : Type} (cast : String → Except String α) (eq : α → α → Bool)
    (arg : String) (next : Option String) :
    ParserS α → List Char → Bool → Except String (ParserS α × Nat)
  | p, [], _ => .ok (p, 1)
  | p, ch :: cs, isFirst =>
    match p.GetHolderByShortNameLoc ch with
    | none => .error ("Unknown short option (`" ++ String.mk [ch] ++ "`)")
    | some (g, full, holder) =>
      if holder.RequiresValue then
        match cs with
        | [] =>
          match next with
          | none =>
            .error ("No value provided for a short option (`" ++ String.mk [ch] ++ "`)")
          | some nv =>
            match holder.ProcessValue cast eq nv with
            | .error e => .error e
            | .ok h2 => .ok (p.updateFull g full h2, 2)
        | _ :: _ =>
          if isFirst && arg.length > 2 then
            match holder.ProcessValue cast eq (arg.drop 2) with
            | .error e => .error e
            | .ok h2 => .ok (p.updateFull g full h2, 1)
          else
            .error "Short option requiring an argument is not allowed in the middle of short options group"
      else
        match holder.ProcessFlag with
        | .error e => .error e
        | .ok h2 => ShortGroupLoop cast eq arg next (p.updateFull g full h2) cs false

/-- `Parser::ParseShortArgs`: iterate the characters after the leading
dash (the caller guarantees `arg.length > 1` and `arg[0] = '-'`). -/
def ParseShortArgs {α : Type} (cast : String → Except String α) (eq : α → α → Bool)
    (p : ParserS α) (arg : String) (next : Option String) :
    Except String (ParserS α × Nat) :=
  ShortGroupLoop cast eq arg next p arg.data.tail true

/-- One iteration of the token loop of `Parser::DoParseArgs` (lines
690–718): dispatch the current token `a` (with `next` the following token,
when any), mutate the matched holder or sink, and report the `step`
(tokens consumed, 1 or 2) together with the updated positional count.
Branch order as in the source: long option (`length > 2` and `--`
prefix), short group (`length > 1` and `-` first), positional slot, free
argument. -/
def ScanStep {α : Type} (cast : String → Except String α) (eq : α → α → Bool)
    (p : ParserS α) (a : String) (next : Option String)
    (positional_arg_count : Nat) : Except String (ParserS α × Nat × Nat) :=
  if a.length > 2 && a.take 2 == "--" then
    match ParseLongArg cast eq p a next with
    | .error e => .error e
    | .ok r => .ok (r.1, r.2, positional_arg_count)
  else if a.length > 1 && firstCharIs a '-' then
    match ParseShortArgs cast eq p a next with
    | .error e => .error e
    | .ok r => .ok (r.1, r.2, positional_arg_count)
  else if positional_arg_count < p.positionals.Size then
    match p.positionals.GetHolderByFullName
        (PositionalArgumentName positional_arg_count) with
    | none => .error "Argparse internal assumptions failed"
    | some holder =>
      match holder.ProcessValue cast eq (EscapeValue a) with
      | .error e => .error e
      | .ok h2 =>
        let pos2 := p.positionals.SetByFullName
          (PositionalArgumentName positional_arg_count) h2
        .ok ({ p with positionals := pos2 }, 1, positional_arg_count + 1)
  else
    match p.free_args with
    | none => .error "Free arguments are not enabled"
    | some l =>
      .ok ({ p with free_args := some (l ++ [EscapeValue a]) }, 1,
        positional_arg_count)

/-- The token loop of `Parser::DoParseArgs`: run `ScanStep` on each token
and advance by the reported `step`. -/
def ScanLoop {α : Type} (cast : String → Except String α) (eq : α → α → Bool) :
    ParserS α → List String → Nat → Except String (ParserS α)
  | p, [], _ => .ok p
  | p, a :: rest, positional_arg_count =>
    match ScanStep cast eq p a rest.head? positional_arg_count with
    | .error e => .error e
    | .ok r =>
      if r.2.1 = 2 then
        match rest with
        | [] => .ok r.1
        | _ :: rest2 => ScanLoop cast eq r.1 rest2 r.2.2
      else ScanLoop cast eq r.1 rest r.2.2

/-- `Parser::PerformPostParseCheck` (lines 723–731): Global Registry first
(only when merging), then the local named registry, then positionals. -/
def ParserS.PerformPostParseCheck {α : Type} (p : ParserS α) : Except String Unit :=
  match (if p.parse_global_args then p.globalHolders.PerformPostParseCheck
         else .ok ()) with
  | .error e => .error e
  | .ok _ =>
    match p.holders.PerformPostParseCheck with
    | .error e => .error e
    | .ok _ => p.positionals.PerformPostParseCheck

/-- `Parser::DoParseArgs` (lines 690–721): scan from index 1, then run the
post-parse required check. -/
def DoParseArgs {α : Type} (cast : String → Except String α) (eq : α → α → Bool)
    (p : ParserS α) (args : List String) : Except String (ParserS α) :=
  match ScanLoop cast eq p (args.drop 1) 0 with
  | .error e => .error e
  | .ok p2 =>
    match p2.PerformPostParseCheck with
    | .error e => .error e
    | .ok _ => .ok p2

/-- `Parser::EnableFreeArgs` (lines 642–644). -/
def EnableFreeArgs {α : Type} (p : ParserS α) : ParserS α :=
  { p with free_args := some [] }

/-- `Parser::FreeArgs` (lines 685–687) dereferences `*free_args_`
unconditionally; the dereference is only defined when the optional is
engaged, which the proof obligation `h` records. -/
def ParserS.FreeArgs {α : Type} (p : ParserS α) (h : p.free_args.isSome) :
    List String :=
  p.free_args.get h

/-! ## The historical variant `src/unnamed/part_000`

Its `Parser::ParseArgs` (lines 653–692) is the same scan with one extra
leading test: a token equal to the configured `tail_mark` sends every
remaining token verbatim into `tail_args_` and stops the scan.  `ParseLongArg`,
`ParseShortArgs` and the post-parse check are textually identical to the
`argparse.h` ones, so they are shared; the holders of that variant store a
per-holder caster, which the explicit `cast` argument already models. -/

/-- The token loop of `part_000`'s `Parser::ParseArgs`: as `ScanLoop`,
but with the tail-separator test first (`args[i] == tail_mark` is the C++
`string == optional<string>` comparison: true only when engaged). -/
def ScanLoopT {α : Type} (cast : String → Except String α) (eq : α → α → Bool)
    (tail_mark : Option String) :
    ParserS α → List String → Nat → Except String (ParserS α)
  | p, [], _ => .ok p
  | p, a :: rest, positional_arg_count =>
    if some a == tail_mark then
      .ok { p with tail_args := p.tail_args ++ rest }
    else
      match ScanStep cast eq p a rest.head? positional_arg_count with
      | .error e => .error e
      | .ok r =>
        if r.2.1 = 2 then
          match rest with
          | [] => .ok r.1
          | _ :: rest2 => ScanLoopT cast eq tail_mark r.1 rest2 r.2.2
        else ScanLoopT cast eq tail_mark r.1 rest r.2.2

/-- `part_000`'s `Parser::ParseArgs(args, tail_mark)`: scan from index 1
(with the tail-separator test), then the post-parse check. -/
def ParseArgsT {α : Type} (cast : String → Except String α) (eq : α → α → Bool)
    (tail_mark : Option String) (p : ParserS α) (args : List String) :
    Except String (ParserS α) :=
  match ScanLoopT cast eq tail_mark p (args.drop 1) 0 with
  | .error e => .error e
  | .ok p2 =>
    match p2.PerformPostParseCheck with
    | .error e => .error e
    | .ok _ => .ok p2

/-- `part_000`'s `Parser::TailArgs` (lines 708–710). -/
def ParserS.TailArgs {α : Type} (p : ParserS α) : List String :=
  p.tail_args

/-- The `operator==` of the element type `Int`, as used by
`detail::Equals` for types with an equality capability. -/
def intEq (a b : Int) : Bool := a == b

/-! # Claims

## Claim C5 — `MultiArgHolder::ProcessFlag` on a Defaulted holder -/

/-- A Multi-value holder in the Defaulted state: a configured default
`[5]`, `contains_default_` still true. -/
def c5holder : MultiArgHolder Int :=
  { fullname := "doubles", shortname := 'd', required := false,
    values := [5], options := none, contains_default := true }

/-- Claim C5, counterexample.  The claim says `ProcessFlag` on a Defaulted
Multi-value Holder clears the default and returns without error; on the
code (`argparse.h` lines 295–297) `ProcessFlag` unconditionally raises
"This argument requires a value", defaults untouched. -/
theorem C5_counterexample :
    c5holder.contains_default = true ∧ c5holder.HasValue = true ∧
    c5holder.ProcessFlag = .error "This argument requires a value" :=
  ⟨rfl, rfl, rfl⟩

/-- Claim C5 as amended: `MultiArgHolder::ProcessFlag` fails with
"This argument requires a value" for every Multi-value Holder, in every
state; the Defaulted-state clearing happens only in `ProcessValue`. -/
theorem C5_theorem {α : Type} (h : MultiArgHolder α) :
    h.ProcessFlag = .error "This argument requires a value" :=
  rfl

/-! ## Claim C4 — `set_options` and already-held values -/

/-- A Single-value holder that already holds the (default) value 5. -/
def c4holder : ArgHolder Int :=
  { fullname := "integer", shortname := '\x00', required := false,
    value := some 5, options := none, contains_default := true }

/-- A Multi-value holder that already holds the default values `[5]`. -/
def c4mholder : MultiArgHolder Int :=
  { fullname := "integer", shortname := '\x00', required := false,
    values := [5], options := none, contains_default := true }

/-- Claim C4, counterexample.  The held value 5 is not a member of the new
options list `[1, 2]`, yet `set_options` succeeds on both holder variants
(`argparse.h` lines 267–273 and 322–328 check only emptiness). -/
theorem C4_counterexample :
    c4holder.HasValue = true ∧
    IsValidValue intEq 5 [1, 2] = false ∧
    c4holder.set_options [1, 2] = .ok { c4holder with options := some [1, 2] } ∧
    c4mholder.set_options [1, 2] = .ok { c4mholder with options := some [1, 2] } :=
  ⟨rfl, by decide, rfl, rfl⟩

/-- Claim C4 as amended: for any holder state whatsoever — in particular
regardless of any already-held default or parsed value — `set_options`
with a non-empty list succeeds and simply stores the list; membership of
held values is never re-validated (the equality capability is enforced at
compile time by a `static_assert`, not at run time). -/
theorem C4_theorem {α : Type} (h : ArgHolder α) (m : MultiArgHolder α)
    (options : List α) (hne : options ≠ []) :
    h.set_options options = .ok { h with options := some options } ∧
    m.set_options options = .ok { m with options := some options } := by
  constructor
  · unfold ArgHolder.set_options
    simp [hne]
  · unfold MultiArgHolder.set_options
    simp [hne]

/-- Witness for C4_theorem at a concrete holder and options list. -/
theorem C4_theorem_witness :
    c4holder.set_options [1, 2] = .ok { c4holder with options := some [1, 2] } ∧
    c4mholder.set_options [1, 2] = .ok { c4mholder with options := some [1, 2] } :=
  C4_theorem c4holder c4mholder [1, 2] (by decide)

/-! ## Claim C2 — second value token on a Single-value Holder -/

/-- A freshly declared `ArgHolder<long long>`-style holder. -/
def c2holder : ArgHolder Int := ArgHolder.mkNew Int "integer" 'i'

/-- Claim C2, counterexample.  After one real value token (`"1"`) has been
stored, a second token (`"2"`) does not raise "accepts only one value"; it
silently overwrites, because `ArgHolder::contains_default_` is initialised
true and never cleared (`argparse.h` line 278), so the guard at line 246
is unreachable. -/
theorem C2_counterexample :
    c2holder.ProcessValue CastLLI intEq "1" =
      .ok { c2holder with value := some 1 } ∧
    ({ c2holder with value := some 1 } : ArgHolder Int).HasValue = true ∧
    ({ c2holder with value := some 1 } : ArgHolder Int).ProcessValue CastLLI intEq "2" =
      .ok { c2holder with value := some 2 } :=
  ⟨rfl, rfl, rfl⟩

/-- Claim C2 as amended: because `contains_default_` is never cleared, the
"accepts only one value" guard of `ArgHolder::ProcessValue` never fires:
every value token is processed as if the holder were unset, the new value
silently overwriting any held one (last write wins), and the processed
holder still has `contains_default_ = true`, so the same holds for every
later token. -/
theorem C2_theorem {α : Type} (cast : String → Except String α)
    (eq : α → α → Bool) (h : ArgHolder α) (s : String) (v : α)
    (h2 : ArgHolder α) (hcd : h.contains_default = true) :
    (h.ProcessValue cast eq s =
      match cast s with
      | .error e => .error e
      | .ok value =>
        if (match h.options with
            | some opts => !IsValidValue eq value opts
            | none => false) then
          .error ("Provided argument string casts to an illegal value (`" ++
            h.fullname ++ "`)")
        else .ok { h with value := some value }) ∧
    (cast s = .ok v → h.options = none →
      h.ProcessValue cast eq s = .ok { h with value := some v }) ∧
    (h.ProcessValue cast eq s = .ok h2 → h2.contains_default = true) := by
  have hguard : (h.HasValue && !h.contains_default) = false := by
    rw [hcd]; simp
  refine ⟨?_, ?_, ?_⟩
  · unfold ArgHolder.ProcessValue
    rw [hguard]
    simp
  · intro hc hopt
    unfold ArgHolder.ProcessValue
    rw [hguard, hc, hopt]
    simp
  · intro hok
    unfold ArgHolder.ProcessValue at hok
    rw [hguard] at hok
    simp only [Bool.false_eq_true, if_false] at hok
    revert hok
    split
    · intro hok; cases hok
    · split
      · intro hok; cases hok
      · intro hok
        cases hok
        exact hcd

/-- Witness for C2_theorem: a holder that already holds the value 1
accepts a second token and ends up holding 2. -/
theorem C2_theorem_witness :
    (({ c2holder with value := some 1 } : ArgHolder Int).ProcessValue CastLLI intEq "2" =
      match CastLLI "2" with
      | .error e => .error e
      | .ok value =>
        if (match ({ c2holder with value := some 1 } : ArgHolder Int).options with
            | some opts => !IsValidValue intEq value opts
            | none => false) then
          .error ("Provided argument string casts to an illegal value (`" ++
            ({ c2holder with value := some 1 } : ArgHolder Int).fullname ++ "`)")
        else .ok { ({ c2holder with value := some 1 } : ArgHolder Int) with
          value := some value }) ∧
    (CastLLI "2" = .ok 2 → ({ c2holder with value := some 1 } : ArgHolder Int).options = none →
      ({ c2holder with value := some 1 } : ArgHolder Int).ProcessValue CastLLI intEq "2" =
        .ok { ({ c2holder with value := some 1 } : ArgHolder Int) with value := some 2 }) ∧
    (({ c2holder with value := some 1 } : ArgHolder Int).ProcessValue CastLLI intEq "2" =
        .ok { c2holder with value := some 2 } →
      ({ c2holder with value := some 2 } : ArgHolder Int).contains_default = true) :=
  C2_theorem CastLLI intEq { c2holder with value := some 1 } "2" 2
    { c2holder with value := some 2 } rfl

/-! ## Claim C7 — the integer caster

Auxiliary lemmas about decimal digits, `decimalString` and the `strtoll`
model, leading to the round-trip law and the failure conditions. -/

/-- The digit character of `d < 10` has codepoint `48 + d`. -/
theorem digitChar_toNat {d : Nat} (hd : d < 10) : (Nat.digitChar d).toNat = 48 + d := by
  interval_cases d <;> rfl

/-- Digit characters satisfy `isdigit`. -/
theorem isDigitC_digitChar {d : Nat} (hd : d < 10) : isDigitC (Nat.digitChar d) = true := by
  interval_cases d <;> rfl

/-- `natDecAux` does not depend on the fuel, as long as it is sufficient. -/
theorem natDecAux_fuel {fuel fuel' n : Nat} (acc : List Char) (h1 : n < fuel)
    (h2 : n < fuel') : natDecAux fuel n acc = natDecAux fuel' n acc := by
  induction fuel generalizing fuel' n acc with
  | zero => omega
  | succ f ih =>
    cases fuel' with
    | zero => omega
    | succ f' =>
      simp only [natDecAux]
      split
      · rfl
      · rename_i hn
        have hdiv : n / 10 < n := Nat.div_lt_self (by omega) (by omega)
        exact ih _ (by omega) (by omega)

/-- The accumulator of `natDecAux` is simply appended. -/
theorem natDecAux_append {fuel n : Nat} (acc : List Char) (h1 : n < fuel) :
    natDecAux fuel n acc = natDecAux fuel n [] ++ acc := by
  induction fuel generalizing n acc with
  | zero => omega
  | succ f ih =>
    simp only [natDecAux]
    split
    · rfl
    · rename_i hn
      have hdiv : n / 10 < n := Nat.div_lt_self (by omega) (by omega)
      rw [ih _ (by omega), ih ([Nat.digitChar (n % 10)]) (by omega)]
      simp

/-- Single digit numerals. -/
theorem natDecChars_lt {n : Nat} (h : n < 10) : natDecChars n = [Nat.digitChar n] := by
  unfold natDecChars
  simp only [natDecAux]
  rw [if_pos h, Nat.mod_eq_of_lt h]

/-- Splitting off the last digit of a numeral. -/
theorem natDecChars_ge {n : Nat} (h : 10 ≤ n) :
    natDecChars n = natDecChars (n / 10) ++ [Nat.digitChar (n % 10)] := by
  unfold natDecChars
  conv_lhs => simp only [natDecAux]
  rw [if_neg (by omega)]
  have hdiv : n / 10 < n := Nat.div_lt_self (by omega) (by omega)
  rw [natDecAux_append _ (by omega), natDecAux_fuel _ (by omega) (Nat.lt_succ_self _)]

/-- Every character of a numeral is a digit. -/
theorem natDecChars_digits (n : Nat) : ∀ c ∈ natDecChars n, isDigitC c = true := by
  induction n using Nat.strong_induction_on with
  | _ n ih =>
    by_cases h : n < 10
    · rw [natDecChars_lt h]
      intro c hc
      simp only [List.mem_singleton] at hc
      subst hc
      exact isDigitC_digitChar h
    · rw [natDecChars_ge (by omega)]
      intro c hc
      rcases List.mem_append.mp hc with h1 | h2
      · exact ih (n / 10) (Nat.div_lt_self (by omega) (by omega)) c h1
      · simp only [List.mem_singleton] at h2
        subst h2
        exact isDigitC_digitChar (Nat.mod_lt _ (by omega))

/-- A numeral is never empty. -/
theorem natDecChars_ne_nil (n : Nat) : natDecChars n ≠ [] := by
  by_cases h : n < 10
  · rw [natDecChars_lt h]; simp
  · rw [natDecChars_ge (by omega)]; simp

/-- Folding the accumulation step of `scanDigits` over a numeral. -/
theorem foldl_natDecChars (n : Nat) : ∀ acc : Nat,
    List.foldl (fun a c => a * 10 + (c.toNat - 48)) acc (natDecChars n) =
      acc * 10 ^ (natDecChars n).length + n := by
  induction n using Nat.strong_induction_on with
  | _ n ih =>
    intro acc
    by_cases h : n < 10
    · rw [natDecChars_lt h]
      simp only [List.foldl, List.length_singleton, pow_one]
      rw [digitChar_toNat h]
      omega
    · have hdiv : n / 10 < n := Nat.div_lt_self (by omega) (by omega)
      rw [natDecChars_ge (by omega), List.foldl_append, ih (n / 10) hdiv acc]
      simp only [List.foldl, List.length_append, List.length_singleton]
      rw [digitChar_toNat (Nat.mod_lt _ (by omega)), pow_succ]
      have hdm : 10 * (n / 10) + n % 10 = n := Nat.div_add_mod n 10
      have hexp : (acc * 10 ^ (natDecChars (n / 10)).length + n / 10) * 10 +
          (48 + n % 10 - 48) =
          acc * (10 ^ (natDecChars (n / 10)).length * 10) +
          (10 * (n / 10) + n % 10) := by ring_nf; omega
      rw [hexp, hdm]

/-- `scanDigits` on an all-digit list consumes everything and accumulates
the decimal value. -/
theorem scanDigits_all_digits : ∀ (cs : List Char) (acc : Nat),
    (∀ c ∈ cs, isDigitC c = true) →
    scanDigits cs acc =
      (List.foldl (fun a c => a * 10 + (c.toNat - 48)) acc cs, cs.length) := by
  intro cs
  induction cs with
  | nil => intro acc _; rfl
  | cons c cs ih =>
    intro acc hall
    have hc : isDigitC c = true := hall c (by simp)
    simp only [scanDigits, hc, if_true, List.foldl, List.length_cons]
    rw [ih _ (fun x hx => hall x (by simp [hx]))]

/-- Digits are not whitespace. -/
theorem isSpaceC_false_of_digit {c : Char} (h : isDigitC c = true) :
    isSpaceC c = false := by
  simp only [isDigitC, Bool.and_eq_true, decide_eq_true_eq] at h
  simp only [isSpaceC, Bool.or_eq_false_iff, Bool.and_eq_false_iff,
    decide_eq_false_iff_not]
  omega

/-- Digits are not the minus sign. -/
theorem digit_ne_dash {c : Char} (h : isDigitC c = true) : c ≠ '-' := by
  intro he
  subst he
  exact absurd h (by decide)

/-- Digits are not the plus sign. -/
theorem digit_ne_plus {c : Char} (h : isDigitC c = true) : c ≠ '+' := by
  intro he
  subst he
  exact absurd h (by decide)

/-- `skipSpaces` does nothing on a list whose head is not whitespace. -/
theorem skipSpaces_no_space {c : Char} (cs : List Char) (h : isSpaceC c = false) :
    skipSpaces (c :: cs) = (0, c :: cs) := by
  simp [skipSpaces, h]

/-- `signSplit` on a list with no leading sign character. -/
theorem signSplit_no_sign {c : Char} (cs : List Char) (h1 : c ≠ '-') (h2 : c ≠ '+') :
    signSplit (c :: cs) = (1, 0, c :: cs) := by
  simp [signSplit, h1, h2]

/-- `signSplit` on a leading minus. -/
theorem signSplit_dash (cs : List Char) : signSplit ('-' :: cs) = (-1, 1, cs) := by
  simp [signSplit]

/-- The `strtoll` model on a bare numeral: value (clamped) and full
consumption. -/
theorem strtoll10_natDecChars (m : Nat) :
    strtoll10 (natDecChars m) = (clampLL m, (natDecChars m).length) := by
  obtain ⟨c, cs, hD⟩ : ∃ c cs, natDecChars m = c :: cs := by
    cases hD : natDecChars m with
    | nil => exact absurd hD (natDecChars_ne_nil m)
    | cons c cs => exact ⟨c, cs, rfl⟩
  have hdig := natDecChars_digits m
  have hc : isDigitC c = true := hdig c (by rw [hD]; simp)
  unfold strtoll10
  rw [hD, skipSpaces_no_space _ (isSpaceC_false_of_digit hc)]
  simp only
  rw [signSplit_no_sign _ (digit_ne_dash hc) (digit_ne_plus hc), ← hD,
    scanDigits_all_digits _ _ hdig, foldl_natDecChars]
  simp only [zero_mul, zero_add, one_mul]
  rw [if_neg (by simp [hD])]

/-- The `strtoll` model on a minus sign followed by a numeral. -/
theorem strtoll10_neg_natDecChars (m : Nat) :
    strtoll10 ('-' :: natDecChars m) =
      (clampLL (-(m : Int)), 1 + (natDecChars m).length) := by
  have hdig := natDecChars_digits m
  unfold strtoll10
  rw [skipSpaces_no_space _ (by decide)]
  simp only
  rw [signSplit_dash, scanDigits_all_digits _ _ hdig, foldl_natDecChars]
  simp only [zero_mul, zero_add, neg_mul, one_mul, zero_add]
  rw [if_neg (by simp [natDecChars_ne_nil m, List.length_eq_zero])]

/-- Round trip: the caster recovers any in-range integer from its decimal
string. -/
theorem CastLLI_decimalString {n : Int} (hl : llMin ≤ n) (hr : n ≤ llMax) :
    CastLLI (decimalString n) = .ok n := by
  have hclamp : clampLL n = n := by
    unfold clampLL
    rw [min_eq_left hr, max_eq_right hl]
  by_cases hneg : n < 0
  · have hD : (decimalString n).data = '-' :: natDecChars n.natAbs := by
      unfold decimalString
      rw [if_pos hneg]
    have habs : ((n.natAbs : Nat) : Int) = -n := by omega
    unfold CastLLI
    rw [hD, strtoll10_neg_natDecChars]
    simp only [List.length_cons]
    rw [if_neg (by omega), habs, neg_neg, hclamp]
  · have hD : (decimalString n).data = natDecChars n.natAbs := by
      unfold decimalString
      rw [if_neg hneg]
    have habs : ((n.natAbs : Nat) : Int) = n := by omega
    unfold CastLLI
    rw [hD, strtoll10_natDecChars]
    simp only
    rw [if_neg (by omega), habs, hclamp]

/-- The characters skipped by `skipSpaces` are whitespace, and the
remainder is what lies beyond them. -/
theorem skipSpaces_spec (l : List Char) :
    (skipSpaces l).1 ≤ l.length ∧
    (skipSpaces l).2 = l.drop (skipSpaces l).1 ∧
    ∀ c ∈ l.take (skipSpaces l).1, isSpaceC c = true := by
  induction l with
  | nil => exact ⟨by simp [skipSpaces], rfl, by simp [skipSpaces]⟩
  | cons c cs ih =>
    by_cases h : isSpaceC c
    · simp only [skipSpaces, h, if_true]
      refine ⟨by simpa using Nat.succ_le_succ ih.1, ?_, ?_⟩
      · simpa using ih.2.1
      · intro x hx
        rw [List.take_succ_cons] at hx
        rcases List.mem_cons.mp hx with rfl | hx
        · exact h
        · exact ih.2.2 x hx
    · simp [skipSpaces, h]

/-- If `scanDigits` consumed the whole list, every character is a digit. -/
theorem scanDigits_full : ∀ (l : List Char) (acc : Nat),
    (scanDigits l acc).2 = l.length → ∀ c ∈ l, isDigitC c = true := by
  intro l
  induction l with
  | nil => intro acc _ c hc; cases hc
  | cons c cs ih =>
    intro acc hfull x hx
    by_cases h : isDigitC c
    · simp only [scanDigits, h, if_true, List.length_cons] at hfull
      rcases List.mem_cons.mp hx with rfl | hx
      · exact h
      · exact ih (acc * 10 + (c.toNat - 48)) (by omega) x hx
    · simp only [scanDigits, h, Bool.false_eq_true, if_false,
        List.length_cons] at hfull
      omega

/-- `signSplit` on a leading plus. -/
theorem signSplit_plus (cs : List Char) : signSplit ('+' :: cs) = (1, 1, cs) := by
  simp [signSplit]

/-- If the `strtoll` parse consumed the entire token, every character of
the token is whitespace, a sign, or a digit. -/
theorem strtoll10_full_chars {s : List Char}
    (hfull : (strtoll10 s).2 = s.length) :
    ∀ c ∈ s, isSpaceC c = true ∨ c = '-' ∨ c = '+' ∨ isDigitC c = true := by
  intro c hmem
  unfold strtoll10 at hfull
  simp only at hfull
  obtain ⟨hle, hdrop, hspace⟩ := skipSpaces_spec s
  by_cases hnd : (scanDigits (signSplit (skipSpaces s).2).2.2 0).2 = 0
  · rw [if_pos hnd] at hfull
    simp only at hfull
    have hs0 : s = [] := List.length_eq_zero.mp hfull.symm
    subst hs0
    cases hmem
  · rw [if_neg hnd] at hfull
    simp only at hfull
    have hsplit : List.take (skipSpaces s).1 s ++ (skipSpaces s).2 = s := by
      rw [hdrop]
      exact List.take_append_drop _ s
    rw [← hsplit] at hmem
    rcases List.mem_append.mp hmem with hin | hin
    · exact Or.inl (hspace c hin)
    · have hlen2 : (skipSpaces s).2.length = s.length - (skipSpaces s).1 := by
        rw [hdrop, List.length_drop]
      cases hr2 : (skipSpaces s).2 with
      | nil => rw [hr2] at hin; cases hin
      | cons c0 t =>
        rw [hr2] at hin hfull hlen2
        simp only [List.length_cons] at hlen2
        by_cases hdash : c0 = '-'
        · subst hdash
          rw [signSplit_dash] at hfull
          simp only at hfull
          have hnd2 : (scanDigits t 0).2 = t.length := by omega
          rcases List.mem_cons.mp hin with rfl | hin
          · exact Or.inr (Or.inl rfl)
          · exact Or.inr (Or.inr (Or.inr (scanDigits_full t 0 hnd2 c hin)))
        · by_cases hplus : c0 = '+'
          · subst hplus
            rw [signSplit_plus] at hfull
            simp only at hfull
            have hnd2 : (scanDigits t 0).2 = t.length := by omega
            rcases List.mem_cons.mp hin with rfl | hin
            · exact Or.inr (Or.inr (Or.inl rfl))
            · exact Or.inr (Or.inr (Or.inr (scanDigits_full t 0 hnd2 c hin)))
          · rw [signSplit_no_sign _ hdash hplus] at hfull
            simp only at hfull
            have hnd2 : (scanDigits (c0 :: t) 0).2 = (c0 :: t).length := by
              simp only [List.length_cons]
              omega
            exact Or.inr (Or.inr (Or.inr (scanDigits_full _ 0 hnd2 c hin)))

/-- Claim C7, counterexample.  The empty token is not a decimal numeral,
and the claim says any such token fails with a cast error; but `strtoll`
consumes no characters of it, leaving `endptr` equal to the end of the
empty string, so the full-string check passes and the caster returns 0. -/
theorem C7_counterexample : CastLLI "" = .ok 0 := rfl

/-- Claim C7 as amended: the round-trip law holds — casting the decimal
string of any in-range integer `n` returns `n` — and any token containing
a character that `strtoll` can never consume (not whitespace, not a sign,
not a digit) fails with the cast error; but a token fails only when
characters are left over after the `strtoll` parse, so the empty string
(vacuously fully consumed) is accepted and yields 0 instead of failing. -/
theorem C7_theorem (n : Int) (s : String) (c : Char)
    (hl : llMin ≤ n) (hr : n ≤ llMax) (hmem : c ∈ s.data)
    (hsp : isSpaceC c = false) (hdash : c ≠ '-') (hplus : c ≠ '+')
    (hdig : isDigitC c = false) :
    CastLLI (decimalString n) = .ok n ∧
    CastLLI s = .error ("Failed to cast `" ++ s ++ "` to integer") := by
  refine ⟨CastLLI_decimalString hl hr, ?_⟩
  have hneq : (strtoll10 s.data).2 ≠ s.data.length := by
    intro hfull
    rcases strtoll10_full_chars hfull c hmem with h | h | h | h
    · simp [hsp] at h
    · exact hdash h
    · exact hplus h
    · simp [hdig] at h
  unfold CastLLI
  rw [if_pos hneq]

/-- Witness for C7_theorem: the round trip at `n = -37`, and the failure
of the trailing-garbage token `"12abc"` (whose `'a'` is unconsumable). -/
theorem C7_theorem_witness :
    CastLLI (decimalString (-37)) = .ok (-37) ∧
    CastLLI "12abc" = .error ("Failed to cast `" ++ "12abc" ++ "` to integer") :=
  C7_theorem (-37) "12abc" 'a' (by decide) (by decide) (by decide) (by decide)
    (by decide) (by decide) (by decide)

/-! ## Concrete parser states for witnesses

The element type is `String` with the identity caster, modelling
`ArgHolder<std::string>` (`Cast<std::string>` is the identity, lines
134–137) — the scan-routing behaviour is independent of the element type. -/

/-- `Cast<std::string>`: the identity, never fails. -/
def castString (s : String) : Except String String := .ok s

/-- `operator==` on the element type `String`. -/
def strEqB (a b : String) : Bool := a == b

/-- An empty registry. -/
def emptyHolders : Holders String :=
  { holders := [], short_long_mapping := [] }

/-- A freshly constructed parser: no holders, free arguments disabled,
global merging on (the Global Registry is empty here). -/
def p0 : ParserS String :=
  { globalHolders := emptyHolders, holders := emptyHolders,
    positionals := emptyHolders, free_args := none, tail_args := [],
    parse_global_args := true }

/-! ## Claim C9 — the bare `"--"` token -/

/-- `ParseShortArgs` on the token `"--"` scans the single group character
`'-'`; with no holder under that short name it fails. -/
theorem ParseShortArgs_dashdash {α : Type} (cast : String → Except String α)
    (eq : α → α → Bool) (p : ParserS α) (next : Option String)
    (hnone : p.GetHolderByShortNameLoc '-' = none) :
    ParseShortArgs cast eq p "--" next = .error "Unknown short option (`-`)" := by
  show ShortGroupLoop cast eq "--" next p ['-'] true = _
  unfold ShortGroupLoop
  rw [hnone]
  rfl

/-- On the token `"--"`, one scan iteration takes the short-option
branch (the long branch needs length > 2) and fails on the unknown short
name `'-'`. -/
theorem ScanStep_dashdash {α : Type} (cast : String → Except String α)
    (eq : α → α → Bool) (p : ParserS α) (next : Option String) (pc : Nat)
    (hnone : p.GetHolderByShortNameLoc '-' = none) :
    ScanStep cast eq p "--" next pc = .error "Unknown short option (`-`)" := by
  unfold ScanStep
  rw [if_neg (by decide), if_pos (by decide),
    ParseShortArgs_dashdash cast eq p next hnone]

/-- Claim C9: the token `"--"` has length 2, so the long-option branch
(`length > 2`) does not fire; it is treated as a short-option group whose
single character is `'-'`, and when no holder is registered under the
short name `'-'` the scan fails with the unknown-short-option error — it
is never a separator or a free argument. -/
theorem C9_theorem {α : Type} (cast : String → Except String α)
    (eq : α → α → Bool) (p : ParserS α) (rest : List String) (pc : Nat)
    (hnone : p.GetHolderByShortNameLoc '-' = none) :
    ScanLoop cast eq p ("--" :: rest) pc =
      .error "Unknown short option (`-`)" := by
  unfold ScanLoop
  rw [ScanStep_dashdash cast eq p rest.head? pc hnone]

/-- Witness for C9_theorem: an empty parser (positionals and free
arguments would both be available, and `free_args` even enabled) still
rejects `"--"`. -/
theorem C9_theorem_witness :
    ScanLoop castString strEqB (EnableFreeArgs p0) ["--"] 0 =
      .error "Unknown short option (`-`)" :=
  C9_theorem castString strEqB (EnableFreeArgs p0) [] 0 rfl

/-! ## Claim C3 — `--`-prefixed tokens always resolve as long options -/

/-- `ParseLongArg` fails with the unknown-long-option error when the name
before the first `=` is in neither registry. -/
theorem ParseLongArg_unknown {α : Type} (cast : String → Except String α)
    (eq : α → α → Bool) (p : ParserS α) (tok : String) (next : Option String)
    (hnone : p.GetHolderByFullNameLoc (SplitLongArg (tok.drop 2)).1 = none) :
    ParseLongArg cast eq p tok next =
      .error ("Unknown long option (`" ++ (SplitLongArg (tok.drop 2)).1 ++ "`)") := by
  simp only [ParseLongArg]
  rw [hnone]

/-- Claim C3: a token of length > 2 starting with `--` is always resolved
as a long option — when the name is unknown the scan fails immediately
(no matter what positional slots or free-argument collection would have
accepted the token); the name is looked up in the Global Registry first
(when merging is on) and in the local registry otherwise. -/
theorem C3_theorem {α : Type} (cast : String → Except String α)
    (eq : α → α → Bool) (p : ParserS α) (a : String) (rest : List String)
    (pc : Nat) (gname lname : String) (gh lh : HolderB α)
    (hlen : a.length > 2) (hpre : a.take 2 = "--")
    (hnone : p.GetHolderByFullNameLoc (SplitLongArg (a.drop 2)).1 = none)
    (hpg : p.parse_global_args = true)
    (hg : p.globalHolders.GetHolderByFullName gname = some gh)
    (hgn : p.globalHolders.GetHolderByFullName lname = none)
    (hl : p.holders.GetHolderByFullName lname = some lh) :
    ScanLoop cast eq p (a :: rest) pc =
      .error ("Unknown long option (`" ++ (SplitLongArg (a.drop 2)).1 ++ "`)") ∧
    p.GetHolderByFullNameLoc gname = some (true, gh) ∧
    p.GetHolderByFullNameLoc lname = some (false, lh) := by
  have hstep : ScanStep cast eq p a rest.head? pc =
      .error ("Unknown long option (`" ++ (SplitLongArg (a.drop 2)).1 ++ "`)") := by
    unfold ScanStep
    rw [if_pos (by simp [hlen, hpre]),
      ParseLongArg_unknown cast eq p a rest.head? hnone]
  refine ⟨?_, ?_, ?_⟩
  · unfold ScanLoop
    rw [hstep]
  · unfold ParserS.GetHolderByFullNameLoc
    rw [hpg, if_pos rfl, hg]
  · unfold ParserS.GetHolderByFullNameLoc
    rw [hpg, if_pos rfl, hgn, hl]
    rfl

/-- The global flag `verbose`/`v` used by the C3 witness. -/
def c3flag : FlagHolder :=
  { fullname := "verbose", shortname := 'v', required := false, value := 0 }

/-- The local single-value option `output`/`o` used by the C3 witness. -/
def c3out : ArgHolder String := ArgHolder.mkNew String "output" 'o'

/-- The one positional slot of the C3 witness parser. -/
def c3pos0 : ArgHolder String :=
  ArgHolder.mkNew String (PositionalArgumentName 0) '\x00'

/-- A Global Registry with one flag `verbose`/`v`. -/
def c3global : Holders String :=
  { holders := [("verbose", .flagH c3flag)],
    short_long_mapping := [('v', "verbose")] }

/-- A local registry with one single-value option `output`/`o`. -/
def c3local : Holders String :=
  { holders := [("output", .singleH c3out)],
    short_long_mapping := [('o', "output")] }

/-- A positional registry with one slot. -/
def c3positionals : Holders String :=
  { holders := [(PositionalArgumentName 0, .singleH c3pos0)],
    short_long_mapping := [] }

/-- A parser with a global flag, a local option, one positional slot and
free arguments enabled — the two sinks that must NOT receive the token. -/
def c3parser : ParserS String :=
  { globalHolders := c3global, holders := c3local, positionals := c3positionals,
    free_args := some [], tail_args := [], parse_global_args := true }

/-- Witness for C3_theorem: `--unknown` fails even though a positional
slot and the free-argument sink are both available, and the resolution
order (global first, then local) is observable on `verbose`/`output`. -/
theorem C3_theorem_witness :
    ScanLoop castString strEqB c3parser ["--unknown", "x"] 0 =
      .error ("Unknown long option (`" ++
        (SplitLongArg ("--unknown".drop 2)).1 ++ "`)") ∧
    c3parser.GetHolderByFullNameLoc "verbose" = some (true, .flagH c3flag) ∧
    c3parser.GetHolderByFullNameLoc "output" = some (false, .singleH c3out) :=
  C3_theorem castString strEqB c3parser "--unknown" ["x"] 0 "verbose" "output"
    (.flagH c3flag) (.singleH c3out)
    (by decide) (by decide) rfl rfl rfl rfl rfl

/-! ## Claim C8 — the tail separator (`src/unnamed/part_000`) -/

/-- Claim C8: when the scan reaches a token equal to the configured tail
mark, every remaining token is appended verbatim and in order to the tail
sequence, the scan stops at once (the separator itself consumed, delivered
nowhere, all other state untouched), and a successful `ParseArgs` call
returns exactly that state after the post-parse check passes. -/
theorem C8_theorem {α : Type} (cast : String → Except String α)
    (eq : α → α → Bool) (tail_mark : Option String) (p : ParserS α)
    (prog a : String) (rest : List String) (pc : Nat)
    (hmark : tail_mark = some a)
    (hchk : ({ p with tail_args := p.tail_args ++ rest } : ParserS α).PerformPostParseCheck = .ok ()) :
    ScanLoopT cast eq tail_mark p (a :: rest) pc =
      .ok { p with tail_args := p.tail_args ++ rest } ∧
    ParseArgsT cast eq tail_mark p (prog :: a :: rest) =
      .ok { p with tail_args := p.tail_args ++ rest } := by
  have h1 : ∀ pc' : Nat, ScanLoopT cast eq tail_mark p (a :: rest) pc' =
      .ok { p with tail_args := p.tail_args ++ rest } := by
    intro pc'
    simp only [ScanLoopT]
    rw [hmark, if_pos (beq_self_eq_true (some a))]
  refine ⟨h1 pc, ?_⟩
  unfold ParseArgsT
  have hdrop : (prog :: a :: rest).drop 1 = a :: rest := rfl
  rw [hdrop, h1 0]
  dsimp only
  rw [hchk]

/-- Witness for C8_theorem: `["bin", "--", "-x", "\\esc"]` with tail mark
`"--"` puts `-x` and `\esc` verbatim into the tail sequence. -/
theorem C8_theorem_witness :
    ScanLoopT castString strEqB (some "--") p0 ["--", "-x", "\\esc"] 0 =
      .ok { p0 with tail_args := p0.tail_args ++ ["-x", "\\esc"] } ∧
    ParseArgsT castString strEqB (some "--") p0 ["bin", "--", "-x", "\\esc"] =
      .ok { p0 with tail_args := p0.tail_args ++ ["-x", "\\esc"] } :=
  C8_theorem castString strEqB (some "--") p0 "bin" "--" ["-x", "\\esc"] 0
    rfl rfl

/-! ## Claim C10 — `Parser::FreeArgs` and its precondition

The only state the scan ever writes to `free_args_` is a `push_back`, so
the optional stays engaged once `EnableFreeArgs` has engaged it; the
unconditional dereference in `FreeArgs()` is then well-defined. -/

/-- Write-back into a registry never touches `free_args_`. -/
theorem updateFull_free {α : Type} (p : ParserS α) (g : Bool) (full : String)
    (h : HolderB α) : (p.updateFull g full h).free_args = p.free_args := by
  unfold ParserS.updateFull
  split <;> rfl

/-- `ParseLongArg` never touches `free_args_`. -/
theorem ParseLongArg_free {α : Type} (cast : String → Except String α)
    (eq : α → α → Bool) (p : ParserS α) (tok : String) (next : Option String)
    (r : ParserS α × Nat) (h : ParseLongArg cast eq p tok next = .ok r) :
    r.1.free_args = p.free_args := by
  simp only [ParseLongArg] at h
  repeat' split at h
  all_goals cases h <;> exact updateFull_free _ _ _ _

/-- The short-group loop never touches `free_args_`. -/
theorem ShortGroupLoop_free {α : Type} (cast : String → Except String α)
    (eq : α → α → Bool) (arg : String) (next : Option String) :
    ∀ (cs : List Char) (b : Bool) (p : ParserS α) (r : ParserS α × Nat),
      ShortGroupLoop cast eq arg next p cs b = .ok r →
      r.1.free_args = p.free_args := by
  intro cs
  induction cs with
  | nil =>
    intro b p r h
    cases h
    rfl
  | cons ch cs ih =>
    intro b p r h
    simp only [ShortGroupLoop] at h
    repeat' split at h
    all_goals first
      | (cases h <;> exact updateFull_free _ _ _ _)
      | exact (ih _ _ _ h).trans (updateFull_free _ _ _ _)

/-- `ParseShortArgs` never touches `free_args_`. -/
theorem ParseShortArgs_free {α : Type} (cast : String → Except String α)
    (eq : α → α → Bool) (p : ParserS α) (arg : String) (next : Option String)
    (r : ParserS α × Nat) (h : ParseShortArgs cast eq p arg next = .ok r) :
    r.1.free_args = p.free_args :=
  ShortGroupLoop_free cast eq arg next _ _ _ _ h

/-- One scan iteration keeps `free_args_` engaged: the option branches do
not touch it, the positional branch copies it, and the free-argument
branch replaces it with an engaged `push_back` result. -/
theorem ScanStep_free {α : Type} (cast : String → Except String α)
    (eq : α → α → Bool) (p : ParserS α) (a : String) (next : Option String)
    (pc : Nat) (r : ParserS α × Nat × Nat)
    (hfree : p.free_args.isSome = true)
    (h : ScanStep cast eq p a next pc = .ok r) :
    r.1.free_args.isSome = true := by
  unfold ScanStep at h
  split at h
  · split at h
    · cases h
    · rename_i r0 hlong
      cases h
      show r0.1.free_args.isSome = true
      rw [ParseLongArg_free cast eq p a next r0 hlong]
      exact hfree
  · split at h
    · split at h
      · cases h
      · rename_i r0 hshort
        cases h
        show r0.1.free_args.isSome = true
        rw [ParseShortArgs_free cast eq p a next r0 hshort]
        exact hfree
    · split at h
      · split at h
        · cases h
        · rename_i holder hlook
          split at h
          · cases h
          · rename_i h2 hproc
            cases h
            exact hfree
      · split at h
        · cases h
        · rename_i l hfa
          cases h
          rfl

/-- The whole scan keeps `free_args_` engaged. -/
theorem ScanLoop_free {α : Type} (cast : String → Except String α)
    (eq : α → α → Bool) (p2 : ParserS α) :
    ∀ (p : ParserS α) (toks : List String) (pc : Nat),
      p.free_args.isSome = true → ScanLoop cast eq p toks pc = .ok p2 →
      p2.free_args.isSome = true := by
  intro p toks pc
  induction p, toks, pc using ScanLoop.induct cast eq with
  | case1 p pc =>
    intro hfree hscan
    simp only [ScanLoop] at hscan
    cases hscan
    exact hfree
  | case2 p a rest pc e hstep =>
    intro hfree hscan
    simp only [ScanLoop, hstep] at hscan
    cases hscan
  | case3 p a pc r hr2 hstep =>
    intro hfree hscan
    simp only [ScanLoop, hstep, hr2, if_true] at hscan
    cases hscan
    exact ScanStep_free cast eq p a [].head? pc r hfree hstep
  | case4 p a pc r hr2 head rest2 hstep ih =>
    intro hfree hscan
    simp only [ScanLoop, hstep, hr2, if_true] at hscan
    exact ih (ScanStep_free cast eq p a (head :: rest2).head? pc r hfree hstep)
      hscan
  | case5 p a rest pc r hstep hne ih =>
    intro hfree hscan
    simp only [ScanLoop, hstep, hne, if_false] at hscan
    exact ih (ScanStep_free cast eq p a rest.head? pc r hfree hstep) hscan

/-- Claim C10: `EnableFreeArgs` engages the optional (as an empty
sequence); any successful scan that starts with the optional engaged ends
with it engaged — so the unconditional dereference in `FreeArgs()` is
well-defined under the precondition that `EnableFreeArgs()` was called —
and `FreeArgs()` then returns exactly the collected sequence. -/
theorem C10_theorem {α : Type} (cast : String → Except String α)
    (eq : α → α → Bool) (p p2 : ParserS α) (toks : List String) (pc : Nat)
    (l : List String)
    (hen : p.free_args.isSome = true)
    (hscan : ScanLoop cast eq p toks pc = .ok p2) :
    (EnableFreeArgs p).free_args = some [] ∧
    p2.free_args.isSome = true ∧
    (∀ hs : p2.free_args.isSome = true,
      p2.free_args = some l → p2.FreeArgs hs = l) := by
  refine ⟨rfl, ScanLoop_free cast eq p2 p toks pc hen hscan, ?_⟩
  intro hs hsome
  unfold ParserS.FreeArgs
  simp only [hsome, Option.get_some]

/-- Witness for C10_theorem: with free arguments enabled, scanning the
lone token `free1` collects it; the dereference yields `["free1"]`. -/
theorem C10_theorem_witness :
    (EnableFreeArgs (EnableFreeArgs p0)).free_args = some [] ∧
    ({ p0 with free_args := some ["free1"] } : ParserS String).free_args.isSome = true ∧
    (∀ hs : ({ p0 with free_args := some ["free1"] } : ParserS String).free_args.isSome = true,
      ({ p0 with free_args := some ["free1"] } : ParserS String).free_args = some ["free1"] →
      ({ p0 with free_args := some ["free1"] } : ParserS String).FreeArgs hs = ["free1"]) :=
  C10_theorem castString strEqB (EnableFreeArgs p0)
    { p0 with free_args := some ["free1"] } ["free1"] 0 ["free1"] rfl rfl

/-! ## Claim C6 — the post-parse required check -/

/-- `Holders::PerformPostParseCheck` passes exactly when no owned holder
is required yet without a value. -/
theorem checkHoldersList_ok_iff {α : Type} (l : List (String × HolderB α)) :
    checkHoldersList l = .ok () ↔
      ∀ e ∈ l, (e.2.required && !e.2.HasValue) = false := by
  induction l with
  | nil => simp [checkHoldersList]
  | cons x rest ih =>
    obtain ⟨name, arg⟩ := x
    simp only [checkHoldersList]
    by_cases hx : (arg.required && !arg.HasValue) = true
    · rw [if_pos hx]
      constructor
      · intro he
        cases he
      · intro hall
        have h1 := hall (name, arg) (List.mem_cons_self _ _)
        rw [hx] at h1
        cases h1
    · rw [if_neg hx, ih]
      constructor
      · intro h e he
        rcases List.mem_cons.mp he with rfl | he2
        · exact Bool.eq_false_iff.mpr hx
        · exact h e he2
      · intro h e he2
        exact h e (List.mem_cons_of_mem _ he2)

/-- A failing registry check names a required holder without a value. -/
theorem checkHoldersList_error {α : Type} (l : List (String × HolderB α))
    (m : String) (h : checkHoldersList l = .error m) :
    ∃ e ∈ l, e.2.required = true ∧ e.2.HasValue = false ∧
      m = "No value provided for option `" ++ e.1 ++ "`" := by
  induction l with
  | nil => cases h
  | cons x rest ih =>
    obtain ⟨name, arg⟩ := x
    simp only [checkHoldersList] at h
    by_cases hx : (arg.required && !arg.HasValue) = true
    · rw [if_pos hx] at h
      cases h
      simp only [Bool.and_eq_true, Bool.not_eq_true'] at hx
      exact ⟨(name, arg), List.mem_cons_self _ _, hx.1, hx.2, rfl⟩
    · rw [if_neg hx] at h
      obtain ⟨e, he, h1, h2, h3⟩ := ih h
      exact ⟨e, List.mem_cons_of_mem _ he, h1, h2, h3⟩

/-- `Holders::PerformPostParseCheck` passes iff no required holder lacks
a value. -/
theorem holdersCheck_ok_iff {α : Type} (r : Holders α) :
    r.PerformPostParseCheck = .ok () ↔
      ∀ e ∈ r.holders, (e.2.required && !e.2.HasValue) = false :=
  checkHoldersList_ok_iff r.holders

/-- A failing `Holders::PerformPostParseCheck` names a violating holder. -/
theorem holdersCheck_error {α : Type} (r : Holders α) (m : String)
    (h : r.PerformPostParseCheck = .error m) :
    ∃ e ∈ r.holders, e.2.required = true ∧ e.2.HasValue = false ∧
      m = "No value provided for option `" ++ e.1 ++ "`" :=
  checkHoldersList_error r.holders m h

/-- The global part of the parser check: what runs before the local
registries. -/
theorem parserCheck_global_error {α : Type} (p : ParserS α) (e : String)
    (hpg : p.parse_global_args = true)
    (hg : p.globalHolders.PerformPostParseCheck = .error e) :
    p.PerformPostParseCheck = .error e := by
  unfold ParserS.PerformPostParseCheck
  rw [hpg, if_pos rfl, hg]

/-- Once the global part passed, the local registry is checked next. -/
theorem parserCheck_after_global {α : Type} (p : ParserS α)
    (hgok : (if p.parse_global_args then p.globalHolders.PerformPostParseCheck
             else .ok ()) = .ok ()) :
    p.PerformPostParseCheck =
      (match p.holders.PerformPostParseCheck with
       | .error e => .error e
       | .ok _ => p.positionals.PerformPostParseCheck) := by
  unfold ParserS.PerformPostParseCheck
  rw [hgok]

/-- Values of `Except String Unit` are `ok ()` or an error. -/
theorem exceptUnit_cases (x : Except String Unit) :
    x = .ok () ∨ ∃ m, x = .error m := by
  cases x with
  | ok u => cases u; exact Or.inl rfl
  | error m => exact Or.inr ⟨m, rfl⟩

/-- Claim C6: after a scan that completes without error, `DoParseArgs`
runs the post-parse check on the scanned state; the check visits the
Global Registry (only when merging), then the local named registry, then
the positionals, in that order; it passes iff no visited holder is
required-but-empty, and a failure carries the "No value provided for
option" message naming such a holder. -/
theorem C6_theorem {α : Type} (cast : String → Except String α)
    (eq : α → α → Bool) (p : ParserS α) (args : List String)
    (p2 : ParserS α) (eg el m : String)
    (hscan : ScanLoop cast eq p (args.drop 1) 0 = .ok p2) :
    (DoParseArgs cast eq p args =
      match p2.PerformPostParseCheck with
      | .error e => .error e
      | .ok _ => .ok p2) ∧
    (p2.PerformPostParseCheck = .ok () ↔
      ((p2.parse_global_args = true →
        ∀ e ∈ p2.globalHolders.holders, (e.2.required && !e.2.HasValue) = false) ∧
       (∀ e ∈ p2.holders.holders, (e.2.required && !e.2.HasValue) = false) ∧
       (∀ e ∈ p2.positionals.holders, (e.2.required && !e.2.HasValue) = false))) ∧
    (p2.parse_global_args = true →
      p2.globalHolders.PerformPostParseCheck = .error eg →
      p2.PerformPostParseCheck = .error eg) ∧
    ((if p2.parse_global_args then p2.globalHolders.PerformPostParseCheck
      else .ok ()) = .ok () →
      p2.holders.PerformPostParseCheck = .error el →
      p2.PerformPostParseCheck = .error el) ∧
    ((if p2.parse_global_args then p2.globalHolders.PerformPostParseCheck
      else .ok ()) = .ok () →
      p2.holders.PerformPostParseCheck = .ok () →
      p2.PerformPostParseCheck = p2.positionals.PerformPostParseCheck) ∧
    (p2.PerformPostParseCheck = .error m →
      ∃ e, (e ∈ p2.globalHolders.holders ∨ e ∈ p2.holders.holders ∨
            e ∈ p2.positionals.holders) ∧
        e.2.required = true ∧ e.2.HasValue = false ∧
        m = "No value provided for option `" ++ e.1 ++ "`") := by
  refine ⟨?_, ?_, ?_, ?_, ?_, ?_⟩
  · unfold DoParseArgs
    rw [hscan]
  · constructor
    · intro hok
      have hgok : (if p2.parse_global_args then
          p2.globalHolders.PerformPostParseCheck else .ok ()) = .ok () := by
        rcases exceptUnit_cases (if p2.parse_global_args then
            p2.globalHolders.PerformPostParseCheck else .ok ()) with h | ⟨n, h⟩
        · exact h
        · exfalso
          unfold ParserS.PerformPostParseCheck at hok
          rw [h] at hok
          cases hok
      have hlok : p2.holders.PerformPostParseCheck = .ok () := by
        rcases exceptUnit_cases p2.holders.PerformPostParseCheck with h | ⟨n, h⟩
        · exact h
        · exfalso
          rw [parserCheck_after_global p2 hgok, h] at hok
          cases hok
      have hpok : p2.positionals.PerformPostParseCheck = .ok () := by
        rw [parserCheck_after_global p2 hgok, hlok] at hok
        exact hok
      refine ⟨?_, ?_, ?_⟩
      · intro hpg
        rw [hpg, if_pos rfl] at hgok
        exact (holdersCheck_ok_iff _).mp hgok
      · exact (holdersCheck_ok_iff _).mp hlok
      · exact (holdersCheck_ok_iff _).mp hpok
    · rintro ⟨hga, hla, hpa⟩
      have hgok : (if p2.parse_global_args then
          p2.globalHolders.PerformPostParseCheck else .ok ()) = .ok () := by
        by_cases hpg : p2.parse_global_args = true
        · rw [hpg, if_pos rfl]
          exact (holdersCheck_ok_iff _).mpr (hga hpg)
        · rw [if_neg (by simp [hpg])]
      rw [parserCheck_after_global p2 hgok,
        (holdersCheck_ok_iff _).mpr hla]
      exact (holdersCheck_ok_iff _).mpr hpa
  · exact fun hpg hg => parserCheck_global_error p2 eg hpg hg
  · intro hgok hl
    rw [parserCheck_after_global p2 hgok, hl]
  · intro hgok hl
    rw [parserCheck_after_global p2 hgok, hl]
  · intro herr
    rcases exceptUnit_cases (if p2.parse_global_args then
        p2.globalHolders.PerformPostParseCheck else .ok ()) with hgok | ⟨n, hg⟩
    · rw [parserCheck_after_global p2 hgok] at herr
      rcases exceptUnit_cases p2.holders.PerformPostParseCheck with hlok | ⟨n2, hl⟩
      · rw [hlok] at herr
        obtain ⟨e, he, h1, h2, h3⟩ := holdersCheck_error _ _ herr
        exact ⟨e, Or.inr (Or.inr he), h1, h2, h3⟩
      · rw [hl] at herr
        cases herr
        obtain ⟨e, he, h1, h2, h3⟩ := holdersCheck_error _ _ hl
        exact ⟨e, Or.inr (Or.inl he), h1, h2, h3⟩
    · have hpg : p2.parse_global_args = true := by
        by_cases hpg : p2.parse_global_args = true
        · exact hpg
        · rw [if_neg (by simp [hpg])] at hg
          cases hg
      rw [hpg, if_pos rfl] at hg
      rw [parserCheck_global_error p2 n hpg hg] at herr
      cases herr
      obtain ⟨e, he, h1, h2, h3⟩ := holdersCheck_error _ _ hg
      exact ⟨e, Or.inl he, h1, h2, h3⟩

/-- A required single-value option that never receives a value, for the
C6 witness. -/
def c6req : ArgHolder String :=
  { fullname := "needed", shortname := 'n', required := true,
    value := none, options := none, contains_default := true }

/-- A parser whose local registry holds the unsatisfied required option. -/
def c6parser : ParserS String :=
  { globalHolders := emptyHolders,
    holders := { holders := [("needed", .singleH c6req)],
                 short_long_mapping := [('n', "needed")] },
    positionals := emptyHolders, free_args := none, tail_args := [],
    parse_global_args := true }

/-- Witness for C6_theorem: an empty scan over `["bin"]` succeeds, and the
check then fails naming the required option `needed`. -/
theorem C6_theorem_witness :
    (DoParseArgs castString strEqB c6parser ["bin"] =
      match c6parser.PerformPostParseCheck with
      | .error e => .error e
      | .ok _ => .ok c6parser) ∧
    (c6parser.PerformPostParseCheck = .ok () ↔
      ((c6parser.parse_global_args = true →
        ∀ e ∈ c6parser.globalHolders.holders,
          (e.2.required && !e.2.HasValue) = false) ∧
       (∀ e ∈ c6parser.holders.holders, (e.2.required && !e.2.HasValue) = false) ∧
       (∀ e ∈ c6parser.positionals.holders,
         (e.2.required && !e.2.HasValue) = false))) ∧
    (c6parser.parse_global_args = true →
      c6parser.globalHolders.PerformPostParseCheck = .error "g" →
      c6parser.PerformPostParseCheck = .error "g") ∧
    ((if c6parser.parse_global_args then
        c6parser.globalHolders.PerformPostParseCheck else .ok ()) = .ok () →
      c6parser.holders.PerformPostParseCheck =
        .error "No value provided for option `needed`" →
      c6parser.PerformPostParseCheck =
        .error "No value provided for option `needed`") ∧
    ((if c6parser.parse_global_args then
        c6parser.globalHolders.PerformPostParseCheck else .ok ()) = .ok () →
      c6parser.holders.PerformPostParseCheck = .ok () →
      c6parser.PerformPostParseCheck = c6parser.positionals.PerformPostParseCheck) ∧
    (c6parser.PerformPostParseCheck =
        .error "No value provided for option `needed`" →
      ∃ e, (e ∈ c6parser.globalHolders.holders ∨ e ∈ c6parser.holders.holders ∨
            e ∈ c6parser.positionals.holders) ∧
        e.2.required = true ∧ e.2.HasValue = false ∧
        "No value provided for option `needed`" =
          "No value provided for option `" ++ e.1 ++ "`") :=
  C6_theorem castString strEqB c6parser ["bin"] c6parser "g"
    "No value provided for option `needed`"
    "No value provided for option `needed`" rfl

/-! ## Claim C1 — short-option group scanning -/

/-- Flag `flag1`/`a` of the `-abc 42` example. -/
def c1a : FlagHolder :=
  { fullname := "flag1", shortname := 'a', required := false, value := 0 }

/-- Flag `flag2`/`b` of the `-abc 42` example. -/
def c1b : FlagHolder :=
  { fullname := "flag2", shortname := 'b', required := false, value := 0 }

/-- The value-requiring option `int`/`c` of the `-abc 42` example. -/
def c1c : ArgHolder String := ArgHolder.mkNew String "int" 'c'

/-- Local registry of the `-abc 42` example. -/
def c1local : Holders String :=
  { holders := [("flag1", .flagH c1a), ("flag2", .flagH c1b),
                ("int", .singleH c1c)],
    short_long_mapping := [('a', "flag1"), ('b', "flag2"), ('c', "int")] }

/-- Parser of the `-abc 42` example. -/
def c1parser : ParserS String :=
  { globalHolders := emptyHolders, holders := c1local,
    positionals := emptyHolders, free_args := none, tail_args := [],
    parse_global_args := true }

/-- Registry after parsing `-abc 42`: both flags counted once, `42`
delivered to `int`. -/
def c1resultHolders : Holders String :=
  { holders := [("flag1", .flagH { c1a with value := 1 }),
                ("flag2", .flagH { c1b with value := 1 }),
                ("int", .singleH { c1c with value := some "42" })],
    short_long_mapping := [('a', "flag1"), ('b', "flag2"), ('c', "int")] }

/-- Parser state after parsing `-abc 42`. -/
def c1result : ParserS String := { c1parser with holders := c1resultHolders }

/-- Flag `flag`/`a` of the `-ba 42` example. -/
def c1xa : FlagHolder :=
  { fullname := "flag", shortname := 'a', required := false, value := 0 }

/-- The value-requiring option `int`/`b` of the `-ba 42` example. -/
def c1xb : ArgHolder String := ArgHolder.mkNew String "int" 'b'

/-- Local registry of the `-ba 42` example. -/
def c1xlocal : Holders String :=
  { holders := [("flag", .flagH c1xa), ("int", .singleH c1xb)],
    short_long_mapping := [('a', "flag"), ('b', "int")] }

/-- Parser of the `-ba 42` example. -/
def c1xparser : ParserS String :=
  { globalHolders := emptyHolders, holders := c1xlocal,
    positionals := emptyHolders, free_args := none, tail_args := [],
    parse_global_args := true }

/-- Registry after the group `-ba`: `b` absorbed the inline value `a`. -/
def c1xresultHolders : Holders String :=
  { holders := [("flag", .flagH c1xa),
                ("int", .singleH { c1xb with value := some "a" })],
    short_long_mapping := [('a', "flag"), ('b', "int")] }

/-- Parser state after the group `-ba`. -/
def c1xresult : ParserS String := { c1xparser with holders := c1xresultHolders }

/-- Claim C1, counterexample.  In `-ba 42` with `b` value-requiring, `b`
is the first character of a token of length 3 > 2, so by the code's own
inline-value rule (`argparse.h` lines 785–789) it absorbs the remainder
`a` of the token and the group consumes one token — it does not fail with
the mid-group error as the claim's `-ba 42` example asserts. -/
theorem C1_counterexample :
    HolderB.RequiresValue (.singleH c1xb) = true ∧
    ParseShortArgs castString strEqB c1xparser "-ba" (some "42") =
      .ok (c1xresult, 1) :=
  ⟨rfl, rfl⟩

/-- Claim C1 as amended: the group scan processes characters left to
right; a non-value character gets `ProcessFlag` and scanning continues in
the token; a value-requiring character that is last takes the next token
(failing "No value provided for a short option" without one) and the
group consumes 2 tokens; a value-requiring character that is the first of
a longer token takes the token remainder as inline value (1 token) — this
includes the claim's `-ba 42`, which therefore delivers `a` to `b` rather
than failing; only a value-requiring character that is neither last nor
first fails with the mid-group error.  `-abc 42` sets `a` and `b` and
delivers `42` to `c`; `-ab7 x` (value-requiring `b` in the middle) fails
with the mid-group error. -/
theorem C1_theorem {α : Type} (cast : String → Except String α)
    (eq : α → α → Bool) (p : ParserS α) (arg nv : String)
    (next : Option String) (cs c2rest : List Char) (b : Bool)
    (fch vch c2h : Char) (g1 g2 : Bool) (full1 full2 : String)
    (f1 : FlagHolder) (v2 hv2 hv3 : HolderB α)
    (hf : p.GetHolderByShortNameLoc fch = some (g1, full1, .flagH f1))
    (hv : p.GetHolderByShortNameLoc vch = some (g2, full2, v2))
    (hreq : v2.RequiresValue = true)
    (harg : arg.length > 2) :
    (ShortGroupLoop cast eq arg next p (fch :: cs) b =
      ShortGroupLoop cast eq arg next
        (p.updateFull g1 full1 (.flagH f1.ProcessFlag)) cs false) ∧
    (v2.ProcessValue cast eq nv = .ok hv2 →
      ShortGroupLoop cast eq arg (some nv) p [vch] b =
        .ok (p.updateFull g2 full2 hv2, 2)) ∧
    (ShortGroupLoop cast eq arg none p [vch] b =
      .error ("No value provided for a short option (`" ++ String.mk [vch] ++ "`)")) ∧
    (v2.ProcessValue cast eq (arg.drop 2) = .ok hv3 →
      ShortGroupLoop cast eq arg next p (vch :: c2h :: c2rest) true =
        .ok (p.updateFull g2 full2 hv3, 1)) ∧
    (ShortGroupLoop cast eq arg next p (vch :: c2h :: c2rest) false =
      .error "Short option requiring an argument is not allowed in the middle of short options group") ∧
    (DoParseArgs castString strEqB c1parser ["binary", "-abc", "42"] =
      .ok c1result) ∧
    (DoParseArgs castString strEqB c1xparser ["binary", "-ab7", "x"] =
      .error "Short option requiring an argument is not allowed in the middle of short options group") := by
  refine ⟨?_, ?_, ?_, ?_, ?_, rfl, rfl⟩
  · conv_lhs => rw [ShortGroupLoop]
    rw [hf]
    rfl
  · intro hok
    conv_lhs => rw [ShortGroupLoop]
    rw [hv]
    dsimp only
    rw [hreq, hok]
    rfl
  · conv_lhs => rw [ShortGroupLoop]
    rw [hv]
    dsimp only
    rw [hreq]
    rfl
  · intro hok
    conv_lhs => rw [ShortGroupLoop]
    rw [hv]
    dsimp only
    rw [hreq, hok]
    simp [harg]
  · conv_lhs => rw [ShortGroupLoop]
    rw [hv]
    dsimp only
    rw [hreq]
    rfl

/-- Witness for C1_theorem at the `-abc 42` scenario: flag `a` and the
value-requiring `c` of `c1parser`, group tails `['b','c']` and `['x']`. -/
theorem C1_theorem_witness :
    (ShortGroupLoop castString strEqB "-abc" (some "42") c1parser ['a', 'b', 'c'] true =
      ShortGroupLoop castString strEqB "-abc" (some "42")
        (c1parser.updateFull false "flag1" (.flagH c1a.ProcessFlag)) ['b', 'c'] false) ∧
    ((HolderB.singleH c1c).ProcessValue castString strEqB "42" =
        .ok (.singleH { c1c with value := some "42" }) →
      ShortGroupLoop castString strEqB "-abc" (some "42") c1parser ['c'] true =
        .ok (c1parser.updateFull false "int"
          (.singleH { c1c with value := some "42" }), 2)) ∧
    (ShortGroupLoop castString strEqB "-abc" none c1parser ['c'] true =
      .error ("No value provided for a short option (`" ++ String.mk ['c'] ++ "`)")) ∧
    ((HolderB.singleH c1c).ProcessValue castString strEqB ("-abc".drop 2) =
        .ok (.singleH { c1c with value := some "bc" }) →
      ShortGroupLoop castString strEqB "-abc" (some "42") c1parser ('c' :: 'x' :: []) true =
        .ok (c1parser.updateFull false "int"
          (.singleH { c1c with value := some "bc" }), 1)) ∧
    (ShortGroupLoop castString strEqB "-abc" (some "42") c1parser ('c' :: 'x' :: []) false =
      .error "Short option requiring an argument is not allowed in the middle of short options group") ∧
    (DoParseArgs castString strEqB c1parser ["binary", "-abc", "42"] =
      .ok c1result) ∧
    (DoParseArgs castString strEqB c1xparser ["binary", "-ab7", "x"] =
      .error "Short option requiring an argument is not allowed in the middle of short options group") :=
  C1_theorem castString strEqB c1parser "-abc" "42" (some "42") ['b', 'c'] []
    true 'a' 'c' 'x' false false "flag1" "int" c1a (.singleH c1c)
    (.singleH { c1c with value := some "42" })
    (.singleH { c1c with value := some "bc" })
    rfl rfl rfl (by decide)

end Argparse
